import Mathlib

/-!
# Verification of the connors-screener screening pipeline

Shallow embedding of the parts of `connors_screener` that the verified
properties talk about:

* `core/screener.py` — the `StockData` record and `get_field`;
* `screening/post_filters/elephant_bars.py` — `elephant_bars_filter`;
* `services/screener_service.py` — the post-filter stage of `run_screening`;
* `config/screening.py` — `ScreeningConfigManager.get_market_config`;
* `screening/providers/tradingview.py` and `tradingview_crypto.py` —
  provider-compatibility validation, payload building and response parsing;
* `screening/configs/tradingview_elephant_bars.py` — the registered
  `elephant_bars` configuration.

Python dynamic values are modelled by `PyVal` (Python `None`, numbers as
rationals, strings, booleans, and lists of strings — the only list shape the
embedded code ever stores).  Python numeric arithmetic on ints/floats is
modelled over `ℚ`; an operation that would raise a `TypeError`/`ValueError`
on non-numeric operands is modelled by an `Option` returning `none`.
Python dicts are association lists with unique keys, looked up by first
match; `dict.get(k, d)` is `pyGet` and `{**m, k: v}` is `pySet`.
-/

/-- A Python runtime value, as far as the screener code manipulates them.
`null` is Python `None`; `num` covers `int` and `float` (exact rationals —
the screener only compares and does field arithmetic, never relies on
binary-float rounding); `strlist` is a list of strings such as the
`extra_columns` entry of a provider configuration. -/
inductive PyVal where
  | null : PyVal
  | num (q : ℚ) : PyVal
  | str (s : String) : PyVal
  | bool (b : Bool) : PyVal
  | strlist (xs : List String) : PyVal
  deriving DecidableEq, Repr

/-- A Python dict with `PyVal` values: an association list, first match wins
(keys are kept unique by `pySet`). -/
abbrev PyDict := List (String × PyVal)

/-- `m.get(k)` / `m[k]` lookup returning `none` when the key is absent. -/
def pyGet? : PyDict → String → Option PyVal
  | [], _ => none
  | p :: t, k => if p.1 = k then some p.2 else pyGet? t k

/-- `m.get(k, d)`: lookup with a default. -/
def pyGet (m : PyDict) (k : String) (d : PyVal) : PyVal :=
  (pyGet? m k).getD d

/-- `{**m, k: v}` / `m[k] = v`: replace any binding of `k` and bind `k` to
`v`; for a fresh key this appends, matching Python dict insertion order. -/
def pySet (m : PyDict) (k : String) (v : PyVal) : PyDict :=
  m.filter (fun p => p.1 ≠ k) ++ [(k, v)]

/-- `core/screener.py`, `StockData`: core fields plus the provider-specific
`raw_data` dict.  Every attribute holds a Python value (the dataclass is not
type-enforced at runtime; in particular `symbol` can end up holding `None`).
`raw_data : Optional[Dict]` is collapsed to a dict: `__post_init__` turns
`None` into `{}`, and `get_field` treats the two identically. -/
structure StockData where
  symbol : PyVal
  name : PyVal := .str ""
  price : PyVal := .num 0
  volume : PyVal := .num 0
  change : PyVal := .num 0
  market_cap : PyVal := .num 0
  sector : PyVal := .str ""
  exchange : PyVal := .str ""
  currency : PyVal := .str ""
  raw_data : PyDict := []
  deriving DecidableEq, Repr

/-- `StockData.__post_init__`: convert `None` attribute values to defaults.
`symbol` is (deliberately, per the source) not converted. -/
def StockData.post_init (s : StockData) : StockData :=
  { s with
    name := if s.name = .null then .str "" else s.name
    price := if s.price = .null then .num 0 else s.price
    volume := if s.volume = .null then .num 0 else s.volume
    change := if s.change = .null then .num 0 else s.change
    market_cap := if s.market_cap = .null then .num 0 else s.market_cap
    sector := if s.sector = .null then .str "" else s.sector
    exchange := if s.exchange = .null then .str "" else s.exchange
    currency := if s.currency = .null then .str "" else s.currency }

/-- The core field names checked first by `StockData.get_field`. -/
def coreFields : List String :=
  ["symbol", "name", "price", "volume", "change",
   "market_cap", "sector", "exchange", "currency"]

/-- `getattr(self, field_name, None)` restricted to the core fields. -/
def StockData.coreAttr (s : StockData) (f : String) : PyVal :=
  if f = "symbol" then s.symbol
  else if f = "name" then s.name
  else if f = "price" then s.price
  else if f = "volume" then s.volume
  else if f = "change" then s.change
  else if f = "market_cap" then s.market_cap
  else if f = "sector" then s.sector
  else if f = "exchange" then s.exchange
  else if f = "currency" then s.currency
  else .null

/-- `StockData.get_field`: core fields first, then `raw_data.get(field)`,
else `None`. -/
def StockData.get_field (s : StockData) (f : String) : PyVal :=
  if f ∈ coreFields then s.coreAttr f
  else pyGet s.raw_data f .null

/-- Numeric view of a Python value: Python arithmetic/comparison on a
non-number raises `TypeError`, modelled by `none`. -/
def PyVal.asNum : PyVal → Option ℚ
  | .num q => some q
  | _ => none

/-- `post_filters/elephant_bars.py`: the bar body
`abs(close_price - open_price) if amplitude > 0 else 0.0`. -/
def elephantBody (o h l c : ℚ) : ℚ :=
  if h - l > 0 then |c - o| else 0

/-- `post_filters/elephant_bars.py`: the body percentage
`(body / amplitude) * 100 if amplitude > 0 else 0.0`; the division is
guarded by `amplitude > 0`, so a zero-range bar never divides by zero. -/
def elephantBodyPct (o h l c : ℚ) : ℚ :=
  if h - l > 0 then elephantBody o h l c / (h - l) * 100 else 0

/-- The `signal` string computed by `elephant_bars_filter` once all seven
inputs are numeric: `"buy"`, `"sell"`, or `""` (rejected), following the
nested `if` structure of the source. -/
def elephantSignal (o h l c v atr av af vf cbp : ℚ) : String :=
  -- amplitude = h - l, atr_adjusted = atr * af, volume_adjusted = v * vf
  if h - l > atr * af ∧ v * vf > av then
    if o < c then (if elephantBodyPct o h l c > cbp then "buy" else "")
    else if o > c then (if elephantBodyPct o h l c > cbp then "sell" else "")
    else ""
  else ""

/-- Core of `elephant_bars_filter` on the seven values it reads from the
record: reject (`some false`) if any is `None`; then do the threshold
arithmetic — on a non-numeric operand the Python code would raise
(`TypeError` in the arithmetic or `ValueError` in the `:.4f` formatting),
modelled by `none`. -/
def elephantCheck (open_price high low close_price volume atr avg_volume : PyVal)
    (context : PyDict) : Option Bool :=
  if open_price = .null ∨ high = .null ∨ low = .null ∨ close_price = .null ∨
      volume = .null ∨ atr = .null ∨ avg_volume = .null then
    some false
  else
    match open_price.asNum, high.asNum, low.asNum, close_price.asNum,
        volume.asNum, atr.asNum, avg_volume.asNum,
        (pyGet context "atr_factor" (.num (5/2))).asNum,
        (pyGet context "volume_factor" (.num 2)).asNum,
        (pyGet context "candle_body_pct" (.num 80)).asNum with
    | some o, some h, some l, some c, some v, some atrv, some av,
        some af, some vf, some cbp =>
      some (decide (elephantSignal o h l c v atrv av af vf cbp ≠ ""))
    | _, _, _, _, _, _, _, _, _, _ => none

/-- `elephant_bars_filter(stock, context)`: reads `open`/`high`/`low`/`ATR`/
`average_volume_30d_calc` through `get_field`, `close` from the `price`
attribute and `volume` from the `volume` attribute, then applies
`elephantCheck`.  (The `_context_printed` banner and per-stock prints only
write to stdout and are omitted.) -/
def elephant_bars_filter (stock : StockData) (context : PyDict) : Option Bool :=
  elephantCheck (stock.get_field "open") (stock.get_field "high")
    (stock.get_field "low") stock.price stock.volume
    (stock.get_field "ATR") (stock.get_field "average_volume_30d_calc") context

/-- Generic association-list lookup (first match), used for the market
tables and the `col_idx` column-index dict. -/
def alookup {α : Type _} : List (String × α) → String → Option α
  | [], _ => none
  | p :: t, k => if p.1 = k then some p.2 else alookup t k

/-- One entry of `ScreeningConfig.filters`: a dict with keys `field`,
`operation` and an optional `value` (`value = none` models a dict in which
the `"value"` key is absent). -/
structure FilterDef where
  field : String
  operation : String
  value : Option PyVal
  deriving DecidableEq, Repr

/-- `core/screener.py`, `ScreeningConfig`. -/
structure ScreeningConfig where
  name : String
  provider : String
  parameters : PyDict
  provider_config : PyDict
  filters : List FilterDef
  description : String := ""
  deriving DecidableEq, Repr

/-- `core/screener.py`, `ScreeningResult`.  `symbols` holds Python values
because a parsed symbol can be `None` (see the response-parsing model). -/
structure ScreeningResult where
  symbols : List PyVal
  data : List StockData
  metadata : PyDict
  provider : String
  config_name : String
  timestamp : String
  deriving DecidableEq, Repr

/-- `run_screening`: the merged filter context
`dict(screening_config.parameters)` updated with `post_filter_context`. -/
def mergeContext (parameters post_filter_context : PyDict) : PyDict :=
  post_filter_context.foldl (fun m p => pySet m p.1 p.2) parameters

/-- The post-filter stage of `ScreenerService.run_screening`
(`services/screener_service.py`): keep the stocks on which the resolved
post-filter returns a truthy value, rebuild `symbols` from the kept stocks,
and re-create the result with the three added metadata keys. -/
def applyPostFilter (result : ScreeningResult) (pred : StockData → Bool) :
    ScreeningResult :=
  let pre_filter_count := result.data.length
  let filtered_data := result.data.filter pred
  let filtered_symbols := filtered_data.map (fun st => st.symbol)
  { symbols := filtered_symbols
    data := filtered_data
    metadata :=
      pySet (pySet (pySet result.metadata
          "post_filter_applied" (.bool true))
          "pre_filter_count" (.num (pre_filter_count : ℚ)))
          "post_filter_count" (.num (filtered_data.length : ℚ))
    provider := result.provider
    config_name := result.config_name
    timestamp := result.timestamp }

/-- The metadata dict built by `TradingViewProvider.scan` for a successful
response (`market`, `symbolset`, `filters_applied`, `response_status`,
`total_results`). -/
def tvProviderMetadata (market symbolset : String)
    (filtersApplied responseStatus totalResults : ℚ) : PyDict :=
  [("market", .str market),
   ("symbolset", .str symbolset),
   ("filters_applied", .num filtersApplied),
   ("response_status", .num responseStatus),
   ("total_results", .num totalResults)]

/-- The metadata dict built by `TradingViewCryptoProvider.scan` for a
successful response: the five analogous keys (with the literal `"crypto"`
market and `"coin"` symbolset) plus `total_count` from the response's
`totalCount`. -/
def cryptoProviderMetadata
    (filtersApplied responseStatus totalResults totalCount : ℚ) : PyDict :=
  [("market", .str "crypto"),
   ("symbolset", .str "coin"),
   ("filters_applied", .num filtersApplied),
   ("response_status", .num responseStatus),
   ("total_results", .num totalResults),
   ("total_count", .num totalCount)]

/-- `config/screening.py`, `MarketScreeningConfig`. -/
structure MarketScreeningConfig where
  name : String
  symbolset : String
  default_volume : ℚ
  market_identifier : String
  deriving DecidableEq, Repr

/-- `config/screening.py`, `ScreeningConfigManager`: the two lookup tables.
(The `SCREENING_CONFIG` environment default is not used by any verified
property and is not modelled.) -/
structure ScreeningConfigManager where
  market_configs : List (String × MarketScreeningConfig)
  legacy_configs : List (String × String)
  deriving DecidableEq, Repr

/-- The tables built by `ScreeningConfigManager.__init__`. -/
def ScreeningConfigManager.make : ScreeningConfigManager where
  market_configs :=
    [("brazil",
      { name := "brazil", symbolset := "SYML:BMFBOVESPA;IBOV",
        default_volume := 1000000, market_identifier := "brazil" }),
     ("australia",
      { name := "australia", symbolset := "SYML:ASX;XKO",
        default_volume := 1000000, market_identifier := "australia" }),
     ("america",
      { name := "america", symbolset := "SYML:SP;SPX",
        default_volume := 10000000, market_identifier := "america" })]
  legacy_configs :=
    [("brazil-bmfbovespa-ibov", "brazil"),
     ("australia-asx-xko", "australia"),
     ("america-nasdaq-xnas", "america"),
     ("america-sp-spx", "america")]

/-- The errors the embedded screener code can raise before any network
activity.  `incompatibleProvider` and `unknownMarket` are the two
`ValueError`s of the sources (carrying exactly the data interpolated into
the Python message); `missingKey` is a `KeyError` (a filter dict without a
`"value"` key reaching `filter_def["value"]`). -/
inductive ScanError where
  | incompatibleProvider (configProvider adapterName : String) : ScanError
  | unknownMarket (name : String) (available : List String) : ScanError
  | missingKey (key : String) : ScanError
  deriving DecidableEq, Repr

/-- `ScreeningConfigManager.get_market_config`: resolve a legacy alias,
then look the canonical name up, raising `unknownMarket` (listing the
canonical market names) when it is not found.  The method only reads the
tables, so the returned manager state is the input one. -/
def ScreeningConfigManager.get_market_config (m : ScreeningConfigManager)
    (config_name : String) :
    (Except ScanError MarketScreeningConfig) × ScreeningConfigManager :=
  let resolved :=
    match alookup m.legacy_configs config_name with
    | some canonical => canonical
    | none => config_name
  match alookup m.market_configs resolved with
  | some mc => (.ok mc, m)
  | none =>
    (.error (.unknownMarket resolved (m.market_configs.map (fun p => p.1))), m)

/-- A wire filter triple of the TradingView request payload:
`{"left": field, "operation": op, "right": value}`. -/
structure WireFilter where
  left : String
  operation : String
  right : PyVal
  deriving DecidableEq, Repr

/-- Option-valued map over a list: `none` as soon as one element maps to
`none` (the first raised exception aborts the Python loop). -/
def mapOption {α β : Type _} (g : α → Option β) : List α → Option (List β)
  | [] => some []
  | a :: as =>
    match g a, mapOption g as with
    | some b, some bs => some (b :: bs)
    | _, _ => none

/-- The per-clause substitution of `_build_payload`: a clause on the
volume-style field that has no `"value"` key gets the resolved volume
threshold (the source copies the dict before writing). -/
def substVolumeValue (volumeField : String) (thr : PyVal) (f : FilterDef) :
    FilterDef :=
  if f.field = volumeField ∧ f.value = none then { f with value := some thr }
  else f

/-- `{"left": f["field"], "operation": f["operation"], "right": f["value"]}`;
`none` models the `KeyError` raised when the `"value"` key is absent. -/
def toWire (f : FilterDef) : Option WireFilter :=
  f.value.map (fun v => { left := f.field, operation := f.operation, right := v })

/-- The filter-building loop shared by the two `_build_payload`s: translate
every clause (with the volume substitution), then append the synthetic
volume clause `{"left": volumeField, "operation": syntheticOp,
"right": thr}` when no configured clause targets the volume-style field. -/
def buildWireFilters (volumeField syntheticOp : String) (thr : PyVal)
    (fs : List FilterDef) : Option (List WireFilter) :=
  (mapOption (fun f => toWire (substVolumeValue volumeField thr f)) fs).map
    (fun ws =>
      if fs.any (fun f => f.field == volumeField) then ws
      else ws ++ [{ left := volumeField, operation := syntheticOp, right := thr }])

/-- The fixed column list of `TradingViewProvider._build_payload`. -/
def tvColumns : List String :=
  ["name", "description", "logoid", "update_mode", "type", "typespecs",
   "close", "pricescale", "minmov", "fractional", "minmove2", "currency",
   "change", "volume", "market_cap_basic", "fundamental_currency_code",
   "price_earnings_ttm", "sector.tr", "market", "sector",
   "recommendation_mark", "exchange"]

/-- The fixed column list of `TradingViewCryptoProvider._build_payload`. -/
def cryptoColumns : List String :=
  ["base_currency", "base_currency_desc", "base_currency_logoid",
   "update_mode", "type", "typespecs", "exchange", "crypto_total_rank",
   "close", "pricescale", "minmov", "fractional", "minmove2", "currency",
   "24h_close_change|5", "market_cap_calc", "fundamental_currency_code",
   "24h_vol_cmc", "circulating_supply", "24h_vol_to_market_cap",
   "socialdominance", "crypto_common_categories.tr", "TechRating_1D",
   "TechRating_1D.tr"]

/-- Right-hand side of a `filter2` expression: a bare string or a list of
strings, as in the source JSON. -/
inductive StrOrList where
  | s (v : String) : StrOrList
  | l (vs : List String) : StrOrList
  deriving DecidableEq, Repr

/-- A `filter2` leaf `{"left": ..., "operation": ..., "right": ...}`. -/
structure FilterExpr where
  left : String
  operation : String
  right : StrOrList
  deriving DecidableEq, Repr

/-- A node of the `filter2` tree: either an `{"operation": {"operator": ...,
"operands": [...]}}` wrapper or an `{"expression": {...}}` leaf. -/
inductive Filter2Node where
  | operation (operator : String) (operands : List Filter2Node) : Filter2Node
  | expression (e : FilterExpr) : Filter2Node

/-- `TradingViewProvider._get_stock_type_filter()`: the fixed structural
stock-type filter. -/
def stockTypeFilter : Filter2Node :=
  .operation "and"
    [.operation "or"
      [.operation "and"
        [.expression { left := "type", operation := "equal", right := .s "stock" },
         .expression { left := "typespecs", operation := "has", right := .l ["common"] }],
       .operation "and"
        [.expression { left := "type", operation := "equal", right := .s "stock" },
         .expression { left := "typespecs", operation := "has", right := .l ["preferred"] }],
       .operation "and"
        [.expression { left := "type", operation := "equal", right := .s "dr" }],
       .operation "and"
        [.expression { left := "type", operation := "equal", right := .s "fund" },
         .expression { left := "typespecs", operation := "has_none_of", right := .l ["etf"] }]]]

/-- A TradingView scan request payload (equities or crypto).  `symbolset` is
`some [...]` for the equities adapter (`"symbols": {"symbolset": [...]}`)
and `none` for the crypto adapter (`"symbols": {}`); `filter2` is present
only for the equities adapter. -/
structure Payload where
  columns : List String
  filter : List WireFilter
  ignore_unknown_fields : Bool
  lang : String
  range_from : ℕ
  range_to : ℕ
  sortBy : String
  sortOrder : String
  symbolset : Option (List String)
  markets : List String
  filter2 : Option Filter2Node

/-- `TradingViewProvider._build_payload`: the volume threshold is
`provider_config.get("volume_threshold", market_config.default_volume)`;
`none` models the `KeyError` of a non-volume clause without a value. -/
def tvBuildPayload (config : ScreeningConfig)
    (market_config : MarketScreeningConfig)
    (sort_by sort_order : String) : Option Payload :=
  let volume_threshold :=
    pyGet config.provider_config "volume_threshold"
      (.num market_config.default_volume)
  (buildWireFilters "volume" "greater" volume_threshold config.filters).map
    (fun fs =>
      { columns := tvColumns
        filter := fs
        ignore_unknown_fields := false
        lang := "en"
        range_from := 0
        range_to := 100
        sortBy := sort_by
        sortOrder := sort_order
        symbolset := some [market_config.symbolset]
        markets := [market_config.market_identifier]
        filter2 := some stockTypeFilter })

/-- `TradingViewCryptoProvider._build_payload`: same loop with field
`24h_vol_cmc`, synthetic operation `egreater`, default threshold
100,000,000, no symbolset and no `filter2`. -/
def cryptoBuildPayload (config : ScreeningConfig)
    (sort_by sort_order : String) : Option Payload :=
  let volume_threshold :=
    pyGet config.provider_config "volume_threshold" (.num 100000000)
  (buildWireFilters "24h_vol_cmc" "egreater" volume_threshold config.filters).map
    (fun fs =>
      { columns := cryptoColumns
        filter := fs
        ignore_unknown_fields := false
        lang := "en"
        range_from := 0
        range_to := 100
        sortBy := sort_by
        sortOrder := sort_order
        symbolset := none
        markets := ["coin"]
        filter2 := none })

/-- The pre-network phase of `TradingViewProvider.scan`: the provider
compatibility check, then the market lookup, then payload building; the
returned payload is the body of the single HTTP POST the method would then
issue.  An `error` result means `scan` raised before any network call. -/
def tvScan (config : ScreeningConfig) (market : String)
    (sort_by sort_order : String) : Except ScanError Payload :=
  if config.provider ≠ "tv" then
    .error (.incompatibleProvider config.provider "TradingView")
  else
    match (ScreeningConfigManager.make.get_market_config market).1 with
    | .error e => .error e
    | .ok mc =>
      match tvBuildPayload config mc sort_by sort_order with
      | some p => .ok p
      | none => .error (.missingKey "value")

/-- The HTTP requests `TradingViewProvider.scan` issues up to the POST:
empty whenever the pre-network phase raises. -/
def tvScanRequests (config : ScreeningConfig) (market : String)
    (sort_by sort_order : String) : List Payload :=
  match tvScan config market sort_by sort_order with
  | .ok p => [p]
  | .error _ => []

/-- The pre-network phase of `TradingViewCryptoProvider.scan` (no market
lookup: the crypto endpoint is fixed). -/
def cryptoScan (config : ScreeningConfig) (sort_by sort_order : String) :
    Except ScanError Payload :=
  if config.provider ≠ "tv_crypto" then
    .error (.incompatibleProvider config.provider "TradingViewCrypto")
  else
    match cryptoBuildPayload config sort_by sort_order with
    | some p => .ok p
    | none => .error (.missingKey "value")

/-- The HTTP requests `TradingViewCryptoProvider.scan` issues up to the
POST. -/
def cryptoScanRequests (config : ScreeningConfig)
    (sort_by sort_order : String) : List Payload :=
  match cryptoScan config sort_by sort_order with
  | .ok p => [p]
  | .error _ => []

/-- `screening/configs/tradingview_elephant_bars.py`: the registered
`elephant_bars` configuration (`TradingViewElephantBarsConfigs.CONFIGS`). -/
def elephantBarsConfig : ScreeningConfig where
  name := "elephant_bars"
  provider := "tv"
  parameters := []
  provider_config :=
    [("extra_columns",
      .strlist ["average_volume_30d_calc", "ATR", "high", "low", "open"]),
     ("use_symbolset", .bool false),
     ("skip_default_volume_filter", .bool true)]
  filters := []
  description :=
    "Top stocks by market cap with volume/ATR data for elephant bar detection"

/-- `col_idx = {col: i for i, col in enumerate(columns)}` as an association
list in insertion order (the column lists are duplicate-free, so first-match
lookup agrees with the Python dict). -/
def colIdxList (columns : List String) : List (String × ℕ) :=
  columns.enum.map (fun p => (p.2, p.1))

/-- `col_idx.get(col)`. -/
def colIdx? (columns : List String) (c : String) : Option ℕ :=
  alookup (colIdxList columns) c

/-- `float(v)` for the values response parsing converts: numbers and
booleans convert; `None` and lists raise (`TypeError`).  Numeric strings —
which Python would parse — are not modelled (`none`); no verified property
evaluates `float` on a string. -/
def pyFloat : PyVal → Option ℚ
  | .num q => some q
  | .bool b => some (if b then 1 else 0)
  | _ => none

/-- `_normalize_value`: `None` becomes `""`, a list of strings becomes a
comma-separated string, anything else passes through. -/
def normalizeValue : PyVal → PyVal
  | .null => .str ""
  | .strlist xs => .str (String.intercalate ", " xs)
  | v => v

/-- The `raw_data` dict built for one response row `d`: iterate
`col_idx.items()` and keep `raw_data[col] = d[i]` only when `i` is in range
and the value is not null. -/
def rawDataOf (columns : List String) (d : List PyVal) : PyDict :=
  (colIdxList columns).filterMap (fun p =>
    (d[p.2]?).bind (fun v => if v = .null then none else some (p.1, v)))

/-- A numeric core field of the row:
`float(d[i]) if col_idx.get(col) is not None and i < len(d) and d[i] is not
None else 0.0`.  `none` models the conversion raising. -/
def coreFloatField (columns : List String) (d : List PyVal) (col : String) :
    Option PyVal :=
  match colIdx? columns col with
  | some i =>
    match d[i]? with
    | some v => if v = .null then some (.num 0) else (pyFloat v).map .num
    | none => some (.num 0)
  | none => some (.num 0)

/-- A string core field guarded against null values (`sector`, `exchange`,
`currency`): `normalize(d[i] if ... and d[i] is not None else "")`. -/
def coreStrField (columns : List String) (d : List PyVal) (col : String) :
    PyVal :=
  normalizeValue
    (match colIdx? columns col with
     | some i =>
       match d[i]? with
       | some v => if v = .null then .str "" else v
       | none => .str ""
     | none => .str "")

/-- The `name` core field (`description` column): the source has no
`is not None` test on the value here, `normalize` alone turns a null into
`""`. -/
def coreStrFieldNoGuard (columns : List String) (d : List PyVal)
    (col : String) : PyVal :=
  normalizeValue
    (match colIdx? columns col with
     | some i => (d[i]?).getD (.str "")
     | none => .str "")

/-- `symbol = d[col_idx[symbolCol]] if col_idx[symbolCol] < len(d) else ""`:
a bracketed dict access (`none` = `KeyError` when the column is missing),
and — unlike the other core fields — no test that the value is non-null. -/
def rowSymbol (columns : List String) (symbolCol : String)
    (d : List PyVal) : Option PyVal :=
  (colIdx? columns symbolCol).map (fun i => (d[i]?).getD (.str ""))

/-- Parsing of one equities response row into a `StockData` (the body of the
`for item in parsed_data` loop of `TradingViewProvider.scan`), including the
dataclass `__post_init__`.  `none` models any exception escaping the loop
body. -/
def tvParseRow (d : List PyVal) : Option StockData :=
  match rowSymbol tvColumns "name" d,
      coreFloatField tvColumns d "close",
      coreFloatField tvColumns d "volume",
      coreFloatField tvColumns d "change",
      coreFloatField tvColumns d "market_cap_basic" with
  | some sym, some price, some vol, some chg, some mcap =>
    some (StockData.post_init
      { symbol := sym
        name := coreStrFieldNoGuard tvColumns d "description"
        price := price
        volume := vol
        change := chg
        market_cap := mcap
        sector := coreStrField tvColumns d "sector"
        exchange := coreStrField tvColumns d "exchange"
        currency := coreStrField tvColumns d "currency"
        raw_data := rawDataOf tvColumns d })
  | _, _, _, _, _ => none

/-! ## Theorems -/

theorem pyGet?_pySet_same (m : PyDict) (k : String) (v : PyVal) :
    pyGet? (pySet m k v) k = some v := by
  induction m with
  | nil => simp [pySet, pyGet?]
  | cons p t ih =>
    by_cases h : p.1 = k
    · simpa [pySet, List.filter_cons, h] using ih
    · simpa [pySet, List.filter_cons, pyGet?, h] using ih

theorem pyGet?_pySet_other (m : PyDict) (k k' : String) (v : PyVal)
    (h : k ≠ k') : pyGet? (pySet m k' v) k = pyGet? m k := by
  induction m with
  | nil =>
    have h' : ¬ (k' = k) := fun hc => h hc.symm
    simp [pySet, pyGet?, h']
  | cons p t ih =>
    have h1 : ¬ (k' = k) := fun hc => h hc.symm
    have h2 : ¬ (k = k') := h
    by_cases hp : p.1 = k'
    · have hk : ¬ (p.1 = k) := by rw [hp]; exact h1
      simpa [pySet, List.filter_cons, pyGet?, hp, hk, h1, h2] using ih
    · by_cases hk : p.1 = k
      · simp [pySet, List.filter_cons, pyGet?, hp, hk, h1, h2]
      · simpa [pySet, List.filter_cons, pyGet?, hp, hk, h1, h2] using ih

theorem elephantSignal_ne_iff (o h l c v atr av af vf cbp : ℚ) :
    elephantSignal o h l c v atr av af vf cbp ≠ "" ↔
      (h - l > atr * af ∧ v * vf > av ∧
        elephantBodyPct o h l c > cbp ∧ o ≠ c) := by
  unfold elephantSignal
  split_ifs with h1 h2 h3 h4 h5
  · exact ⟨fun _ => ⟨h1.1, h1.2, h3, ne_of_lt h2⟩, fun _ => by decide⟩
  · exact ⟨fun hq => absurd rfl hq, fun hr => absurd hr.2.2.1 h3⟩
  · exact ⟨fun _ => ⟨h1.1, h1.2, h5, ne_of_gt h4⟩, fun _ => by decide⟩
  · exact ⟨fun hq => absurd rfl hq, fun hr => absurd hr.2.2.1 h5⟩
  · have heq : o = c := le_antisymm (not_lt.mp h4) (not_lt.mp h2)
    exact ⟨fun hq => absurd rfl hq, fun hr => absurd heq hr.2.2.2⟩
  · exact ⟨fun hq => absurd rfl hq, fun hr => absurd ⟨hr.1, hr.2.1⟩ h1⟩

/-- Helper: reduction of `elephant_bars_filter` when all seven record reads
and the three context factors are numeric. -/
theorem elephant_bars_filter_eq_signal (s : StockData) (ctx : PyDict)
    (o h l c v atrv av af vf cbp : ℚ)
    (ho : s.get_field "open" = .num o)
    (hh : s.get_field "high" = .num h)
    (hl : s.get_field "low" = .num l)
    (hc : s.price = .num c)
    (hv : s.volume = .num v)
    (ha : s.get_field "ATR" = .num atrv)
    (hav : s.get_field "average_volume_30d_calc" = .num av)
    (haf : pyGet ctx "atr_factor" (.num (5/2)) = .num af)
    (hvf : pyGet ctx "volume_factor" (.num 2) = .num vf)
    (hcbp : pyGet ctx "candle_body_pct" (.num 80) = .num cbp) :
    elephant_bars_filter s ctx =
      some (decide (elephantSignal o h l c v atrv av af vf cbp ≠ "")) := by
  unfold elephant_bars_filter elephantCheck
  rw [ho, hh, hl, hc, hv, ha, hav, haf, hvf, hcbp]
  simp [PyVal.asNum]

/-- C1: for a record with all seven inputs present (numeric) and any context
map, `elephant_bars_filter` accepts iff the amplitude beats `ATR *
atr_factor`, the adjusted volume beats the 30-day average, the body
percentage — `(|close - open| / (high - low)) * 100` when `high - low > 0`,
else `0` — beats `candle_body_pct`, and the bar is not a doji
(`open != close`); the three factors default to `2.5`, `2.0`, `80.0` when
absent from the context. -/
theorem elephant_bars_filter_accepts_iff (s : StockData) (ctx : PyDict)
    (o h l c v atrv av af vf cbp : ℚ)
    (ho : s.get_field "open" = .num o)
    (hh : s.get_field "high" = .num h)
    (hl : s.get_field "low" = .num l)
    (hc : s.price = .num c)
    (hv : s.volume = .num v)
    (ha : s.get_field "ATR" = .num atrv)
    (hav : s.get_field "average_volume_30d_calc" = .num av)
    (haf : pyGet ctx "atr_factor" (.num (5/2)) = .num af)
    (hvf : pyGet ctx "volume_factor" (.num 2) = .num vf)
    (hcbp : pyGet ctx "candle_body_pct" (.num 80) = .num cbp) :
    elephant_bars_filter s ctx = some true ↔
      (h - l > atrv * af ∧ v * vf > av ∧
        (if h - l > 0 then |c - o| / (h - l) * 100 else 0) > cbp ∧ o ≠ c) := by
  rw [elephant_bars_filter_eq_signal s ctx o h l c v atrv av af vf cbp
    ho hh hl hc hv ha hav haf hvf hcbp]
  have hbody : elephantBodyPct o h l c =
      (if h - l > 0 then |c - o| / (h - l) * 100 else 0) := by
    by_cases hamp : h - l > 0
    · simp [elephantBodyPct, elephantBody, hamp]
    · simp [elephantBodyPct, hamp]
  constructor
  · intro hsome
    have : decide (elephantSignal o h l c v atrv av af vf cbp ≠ "") = true :=
      Option.some_inj.mp hsome
    have := of_decide_eq_true this
    rw [elephantSignal_ne_iff] at this
    rw [← hbody]
    exact this
  · intro hr
    rw [← hbody] at hr
    have := (elephantSignal_ne_iff o h l c v atrv av af vf cbp).mpr hr
    rw [decide_eq_true this]

/-- Witness for C1: the literal scenario open=140, high=162, low=138,
close=160, volume=5,000,000, ATR=5, avg_volume=1,000,000 with
atr_factor=2, volume_factor=2, candle_body_pct=70 is accepted. -/
theorem elephant_bars_filter_accepts_iff_witness :
    elephant_bars_filter
      { symbol := .str "TEST", price := .num 160, volume := .num 5000000,
        raw_data := [("open", .num 140), ("high", .num 162),
                     ("low", .num 138), ("ATR", .num 5),
                     ("average_volume_30d_calc", .num 1000000)] }
      [("atr_factor", .num 2), ("volume_factor", .num 2),
       ("candle_body_pct", .num 70)] = some true := by
  refine (elephant_bars_filter_accepts_iff _ _
    140 162 138 160 5000000 5 1000000 2 2 70
    (by decide) (by decide) (by decide) (by decide) (by decide)
    (by decide) (by decide) (by decide) (by decide) (by decide)).mpr ?_
  refine ⟨by norm_num, by norm_num, ?_, by norm_num⟩
  rw [if_pos (by norm_num : (162 : ℚ) - 138 > 0)]
  rw [show |(160 : ℚ) - 140| = 20 by norm_num [abs_of_nonneg]]
  norm_num

/-- C2: if any of the seven inputs — `open`, `high`, `low`, `close` (the
price attribute), `volume`, `ATR`, `average_volume_30d_calc` — is absent
(`None`), `elephant_bars_filter` rejects the record with `some false`: it
returns (never raises, i.e. never `none`) regardless of the other values
and of the context. -/
theorem elephant_bars_filter_missing_rejects (s : StockData) (ctx : PyDict)
    (hmiss : s.get_field "open" = .null ∨ s.get_field "high" = .null ∨
      s.get_field "low" = .null ∨ s.price = .null ∨ s.volume = .null ∨
      s.get_field "ATR" = .null ∨
      s.get_field "average_volume_30d_calc" = .null) :
    elephant_bars_filter s ctx = some false := by
  unfold elephant_bars_filter elephantCheck
  rw [if_pos]
  exact hmiss

/-- Witness for C2: a record whose `raw_data` has no `ATR` (nor any OHLC
columns) is rejected. -/
theorem elephant_bars_filter_missing_rejects_witness :
    elephant_bars_filter
      { symbol := .str "NOATR", price := .num 10, volume := .num 1000,
        raw_data := [("open", .num 9), ("high", .num 12), ("low", .num 8)] }
      [] = some false :=
  elephant_bars_filter_missing_rejects _ _
    (Or.inr (Or.inr (Or.inr (Or.inr (Or.inr (Or.inl (by decide)))))))

/-- C3: with all seven inputs present and `high == low` (zero amplitude),
the filter computes `body = 0` and `body_pct = 0` (the division is behind
the `amplitude > 0` guard and is never executed), and rejects the record
whenever the `candle_body_pct` threshold is positive — in particular at its
default 80. -/
theorem elephant_bars_filter_zero_range (s : StockData) (ctx : PyDict)
    (o h l c v atrv av af vf cbp : ℚ)
    (ho : s.get_field "open" = .num o)
    (hh : s.get_field "high" = .num h)
    (hl : s.get_field "low" = .num l)
    (hc : s.price = .num c)
    (hv : s.volume = .num v)
    (ha : s.get_field "ATR" = .num atrv)
    (hav : s.get_field "average_volume_30d_calc" = .num av)
    (haf : pyGet ctx "atr_factor" (.num (5/2)) = .num af)
    (hvf : pyGet ctx "volume_factor" (.num 2) = .num vf)
    (hcbp : pyGet ctx "candle_body_pct" (.num 80) = .num cbp)
    (hzero : h = l) (hpos : 0 < cbp) :
    elephantBody o h l c = 0 ∧ elephantBodyPct o h l c = 0 ∧
      elephant_bars_filter s ctx = some false := by
  have hamp : ¬ (h - l > 0) := by rw [hzero]; simp
  refine ⟨by simp [elephantBody, hamp], by simp [elephantBodyPct, hamp], ?_⟩
  rw [elephant_bars_filter_eq_signal s ctx o h l c v atrv av af vf cbp
    ho hh hl hc hv ha hav haf hvf hcbp]
  have hbp : ¬ (elephantBodyPct o h l c > cbp) := by
    simp [elephantBodyPct, hamp]
    exact le_of_lt hpos
  have : ¬ (elephantSignal o h l c v atrv av af vf cbp ≠ "") := by
    rw [elephantSignal_ne_iff]
    exact fun hr => hbp hr.2.2.1
  rw [decide_eq_false this]

/-- Witness for C3: a zero-range bar (high = low = 12) with everything else
present is rejected under the default thresholds. -/
theorem elephant_bars_filter_zero_range_witness :
    elephantBody 10 12 12 11 = 0 ∧ elephantBodyPct 10 12 12 11 = 0 ∧
      elephant_bars_filter
        { symbol := .str "FLAT", price := .num 11, volume := .num 500,
          raw_data := [("open", .num 10), ("high", .num 12),
                       ("low", .num 12), ("ATR", .num 1),
                       ("average_volume_30d_calc", .num 100)] }
        [] = some false :=
  elephant_bars_filter_zero_range _ _ 10 12 12 11 500 1 100 (5/2) 2 80
    (by decide) (by decide) (by decide) (by decide) (by decide) (by decide)
    (by decide) rfl rfl rfl rfl (by norm_num)

/-- C4: the post-filter stage keeps exactly the data on which the predicate
returns true, in the original order; the rebuilt `symbols` list is the
symbol of each kept stock, index by index; and `len(symbols) == len(data)`
holds after filtering (it holds before by hypothesis). -/
theorem applyPostFilter_data_symbols (r : ScreeningResult)
    (pred : StockData → Bool)
    (hlen : r.symbols.length = r.data.length) :
    (applyPostFilter r pred).data = r.data.filter pred ∧
    (applyPostFilter r pred).symbols =
      (applyPostFilter r pred).data.map (fun st => st.symbol) ∧
    (∀ i (h1 : i < (applyPostFilter r pred).symbols.length)
        (h2 : i < (applyPostFilter r pred).data.length),
      (applyPostFilter r pred).symbols.get ⟨i, h1⟩ =
        ((applyPostFilter r pred).data.get ⟨i, h2⟩).symbol) ∧
    (applyPostFilter r pred).symbols.length =
      (applyPostFilter r pred).data.length := by
  refine ⟨rfl, rfl, ?_, by simp [applyPostFilter]⟩
  intro i h1 h2
  simp [applyPostFilter]

/-- Witness for C4 at a two-element result whose predicate keeps only the
second stock. -/
theorem applyPostFilter_data_symbols_witness :
    ((applyPostFilter
        { symbols := [.str "A", .str "B"],
          data := [{ symbol := .str "A", price := .num 1 },
                   { symbol := .str "B", price := .num 2 }],
          metadata := [], provider := "TradingView",
          config_name := "cfg", timestamp := "t" }
        (fun st => st.price == .num 2)).data =
      [{ symbol := .str "B", price := .num 2 }]) ∧
    ((applyPostFilter
        { symbols := [.str "A", .str "B"],
          data := [{ symbol := .str "A", price := .num 1 },
                   { symbol := .str "B", price := .num 2 }],
          metadata := [], provider := "TradingView",
          config_name := "cfg", timestamp := "t" }
        (fun st => st.price == .num 2)).symbols = [.str "B"]) := by
  have h := applyPostFilter_data_symbols
    { symbols := [.str "A", .str "B"],
      data := [{ symbol := .str "A", price := .num 1 },
               { symbol := .str "B", price := .num 2 }],
      metadata := [], provider := "TradingView",
      config_name := "cfg", timestamp := "t" }
    (fun st => st.price == .num 2) rfl
  refine ⟨h.1.trans (by decide), h.2.1.trans ?_⟩
  rw [h.1]
  decide

/-- C5: whatever result the provider returned, the post-filter stage
records `post_filter_applied = True`, `pre_filter_count = len(original
data)`, `post_filter_count = len(kept data)` (so `post_filter_count ≤
pre_filter_count`), leaves the lookup of every other metadata key unchanged
— so every key/value pair of the provider result's metadata (none of the
providers uses the three bookkeeping names) is still present unchanged —
and leaves `provider`, `config_name` and `timestamp` untouched. -/
theorem applyPostFilter_metadata (r : ScreeningResult)
    (pred : StockData → Bool) :
    pyGet? (applyPostFilter r pred).metadata "post_filter_applied" =
      some (.bool true) ∧
    pyGet? (applyPostFilter r pred).metadata "pre_filter_count" =
      some (.num (r.data.length : ℚ)) ∧
    pyGet? (applyPostFilter r pred).metadata "post_filter_count" =
      some (.num ((r.data.filter pred).length : ℚ)) ∧
    (r.data.filter pred).length ≤ r.data.length ∧
    (∀ k, k ≠ "post_filter_applied" → k ≠ "pre_filter_count" →
      k ≠ "post_filter_count" →
      pyGet? (applyPostFilter r pred).metadata k = pyGet? r.metadata k) ∧
    (applyPostFilter r pred).provider = r.provider ∧
    (applyPostFilter r pred).config_name = r.config_name ∧
    (applyPostFilter r pred).timestamp = r.timestamp := by
  refine ⟨?_, ?_, ?_, List.length_filter_le _ _, ?_, rfl, rfl, rfl⟩
  · show pyGet? (pySet (pySet (pySet r.metadata
      "post_filter_applied" (.bool true))
      "pre_filter_count" (.num (r.data.length : ℚ)))
      "post_filter_count" (.num ((r.data.filter pred).length : ℚ)))
      "post_filter_applied" = some (.bool true)
    rw [pyGet?_pySet_other _ _ _ _ (by decide),
      pyGet?_pySet_other _ _ _ _ (by decide), pyGet?_pySet_same]
  · show pyGet? (pySet (pySet (pySet r.metadata
      "post_filter_applied" (.bool true))
      "pre_filter_count" (.num (r.data.length : ℚ)))
      "post_filter_count" (.num ((r.data.filter pred).length : ℚ)))
      "pre_filter_count" = some (.num (r.data.length : ℚ))
    rw [pyGet?_pySet_other _ _ _ _ (by decide), pyGet?_pySet_same]
  · show pyGet? (pySet (pySet (pySet r.metadata
      "post_filter_applied" (.bool true))
      "pre_filter_count" (.num (r.data.length : ℚ)))
      "post_filter_count" (.num ((r.data.filter pred).length : ℚ)))
      "post_filter_count" = some (.num ((r.data.filter pred).length : ℚ))
    rw [pyGet?_pySet_same]
  · intro k h1 h2 h3
    show pyGet? (pySet (pySet (pySet r.metadata
      "post_filter_applied" (.bool true))
      "pre_filter_count" (.num (r.data.length : ℚ)))
      "post_filter_count" (.num ((r.data.filter pred).length : ℚ)))
      k = pyGet? r.metadata k
    rw [pyGet?_pySet_other _ _ _ _ h3, pyGet?_pySet_other _ _ _ _ h2,
      pyGet?_pySet_other _ _ _ _ h1]

/-- Witness for C5: a one-coin crypto result (six metadata keys including
`total_count`), predicate discards everything; the three bookkeeping keys
are set and the prior `total_count` and `market` entries survive. -/
theorem applyPostFilter_metadata_witness :
    (pyGet? (applyPostFilter
        { symbols := [.str "BTC"],
          data := [{ symbol := .str "BTC", price := .num 1 }],
          metadata := cryptoProviderMetadata 0 200 1 5,
          provider := "TradingViewCrypto", config_name := "crypto_basic",
          timestamp := "t" }
        (fun _ => false)).metadata "post_filter_applied" =
      some (.bool true)) ∧
    (pyGet? (applyPostFilter
        { symbols := [.str "BTC"],
          data := [{ symbol := .str "BTC", price := .num 1 }],
          metadata := cryptoProviderMetadata 0 200 1 5,
          provider := "TradingViewCrypto", config_name := "crypto_basic",
          timestamp := "t" }
        (fun _ => false)).metadata "total_count" = some (.num 5)) ∧
    (pyGet? (applyPostFilter
        { symbols := [.str "BTC"],
          data := [{ symbol := .str "BTC", price := .num 1 }],
          metadata := cryptoProviderMetadata 0 200 1 5,
          provider := "TradingViewCrypto", config_name := "crypto_basic",
          timestamp := "t" }
        (fun _ => false)).metadata "market" = some (.str "crypto")) := by
  have h := applyPostFilter_metadata
    { symbols := [.str "BTC"],
      data := [{ symbol := .str "BTC", price := .num 1 }],
      metadata := cryptoProviderMetadata 0 200 1 5,
      provider := "TradingViewCrypto", config_name := "crypto_basic",
      timestamp := "t" }
    (fun _ => false)
  refine ⟨h.1, ?_, ?_⟩
  · rw [h.2.2.2.2.1 "total_count" (by decide) (by decide) (by decide)]
    decide
  · rw [h.2.2.2.2.1 "market" (by decide) (by decide) (by decide)]
    decide

/-- C6: a configuration whose `provider` differs from the adapter's own
identifier (`"tv"` for equities, `"tv_crypto"` for crypto) makes `scan`
raise the descriptive incompatibility `ValueError` — carrying the config's
provider and the adapter name — before any HTTP request is issued (the
request trace is empty). -/
theorem scan_provider_mismatch (config : ScreeningConfig)
    (market sort_by sort_order : String) :
    (config.provider ≠ "tv" →
      tvScan config market sort_by sort_order =
        .error (.incompatibleProvider config.provider "TradingView") ∧
      tvScanRequests config market sort_by sort_order = []) ∧
    (config.provider ≠ "tv_crypto" →
      cryptoScan config sort_by sort_order =
        .error (.incompatibleProvider config.provider "TradingViewCrypto") ∧
      cryptoScanRequests config sort_by sort_order = []) := by
  constructor
  · intro hne
    have h1 : tvScan config market sort_by sort_order =
        .error (.incompatibleProvider config.provider "TradingView") := by
      unfold tvScan
      rw [if_pos hne]
    exact ⟨h1, by unfold tvScanRequests; rw [h1]⟩
  · intro hne
    have h1 : cryptoScan config sort_by sort_order =
        .error (.incompatibleProvider config.provider "TradingViewCrypto") := by
      unfold cryptoScan
      rw [if_pos hne]
    exact ⟨h1, by unfold cryptoScanRequests; rw [h1]⟩

/-- Witness for C6: a `finviz` configuration is rejected by both TradingView
adapters without any request being issued. -/
theorem scan_provider_mismatch_witness :
    (tvScan ⟨"rsi2", "finviz", [], [], [], ""⟩ "america" "close" "asc" =
      .error (.incompatibleProvider "finviz" "TradingView")) ∧
    (tvScanRequests ⟨"rsi2", "finviz", [], [], [], ""⟩
      "america" "close" "asc" = []) ∧
    (cryptoScanRequests ⟨"rsi2", "finviz", [], [], [], ""⟩
      "close" "asc" = []) := by
  have h := scan_provider_mismatch
    ⟨"rsi2", "finviz", [], [], [], ""⟩ "america" "close" "asc"
  have h1 := h.1 (by decide)
  have h2 := h.2 (by decide)
  exact ⟨h1.1, h1.2, h2.2⟩

/-- Helper: a successful `mapOption` has the same length as its input and
maps the `i`-th element to the `i`-th output. -/
theorem mapOption_spec {α β : Type} (g : α → Option β) (l : List α) :
    ∀ bs : List β, mapOption g l = some bs →
      bs.length = l.length ∧
      ∀ (i : ℕ) (a : α), l[i]? = some a →
        ∃ b, g a = some b ∧ bs[i]? = some b := by
  induction l with
  | nil =>
    intro bs hm
    simp only [mapOption, Option.some_inj] at hm
    subst hm
    exact ⟨rfl, by intro i a ha; simp at ha⟩
  | cons x t ih =>
    intro bs hm
    unfold mapOption at hm
    cases hgx : g x with
    | none =>
      cases hmt : mapOption g t with
      | none => rw [hgx, hmt] at hm; exact absurd hm (by simp)
      | some bs2 => rw [hgx, hmt] at hm; exact absurd hm (by simp)
    | some b =>
      cases hmt : mapOption g t with
      | none => rw [hgx, hmt] at hm; exact absurd hm (by simp)
      | some bs2 =>
        rw [hgx, hmt] at hm
        have hbs : bs = b :: bs2 := (Option.some_inj.mp hm).symm
        subst hbs
        obtain ⟨hlen, hnth⟩ := ih bs2 hmt
        refine ⟨by simp [hlen], ?_⟩
        intro i a ha
        cases i with
        | zero =>
          simp only [List.getElem?_cons_zero, Option.some_inj] at ha
          subst ha
          exact ⟨b, hgx, by simp⟩
        | succ j =>
          simp only [List.getElem?_cons_succ] at ha ⊢
          exact hnth j a ha

/-- Helper: `toWire ∘ substVolumeValue` preserves the clause's field and
operation. -/
theorem toWire_subst_field (volumeField : String) (thr : PyVal)
    (f : FilterDef) (b : WireFilter)
    (hb : toWire (substVolumeValue volumeField thr f) = some b) :
    b.left = f.field ∧ b.operation = f.operation := by
  unfold substVolumeValue at hb
  by_cases hc : (f.field = volumeField ∧ f.value = none)
  · rw [if_pos hc] at hb
    have : b = { left := f.field, operation := f.operation, right := thr } :=
      (Option.some_inj.mp hb).symm
    rw [this]
    exact ⟨rfl, rfl⟩
  · rw [if_neg hc] at hb
    cases hfv : f.value with
    | none => rw [toWire, hfv] at hb; exact absurd hb (by simp)
    | some v =>
      rw [toWire, hfv] at hb
      have : b = { left := f.field, operation := f.operation, right := v } :=
        (Option.some_inj.mp hb).symm
      rw [this]
      exact ⟨rfl, rfl⟩

/-- Helper: full characterization of the shared filter-building loop on a
successful run: per-index translation with the volume-value substitution,
the synthetic clause appended exactly when no configured clause targets the
volume-style field, and the presence of a volume-style clause in every
outcome. -/
theorem buildWireFilters_spec (volumeField syntheticOp : String)
    (thr : PyVal) (fs : List FilterDef) (ws : List WireFilter)
    (hws : buildWireFilters volumeField syntheticOp thr fs = some ws) :
    (∀ (i : ℕ) (f : FilterDef), fs[i]? = some f →
      (∀ v, f.value = some v →
        ws[i]? = some { left := f.field, operation := f.operation, right := v }) ∧
      (f.field = volumeField → f.value = none →
        ws[i]? = some { left := volumeField, operation := f.operation,
                        right := thr })) ∧
    ((∀ f ∈ fs, f.field ≠ volumeField) →
      ws.length = fs.length + 1 ∧
      ws[fs.length]? = some { left := volumeField, operation := syntheticOp,
                              right := thr }) ∧
    ((∃ f ∈ fs, f.field = volumeField) → ws.length = fs.length) ∧
    (∃ w ∈ ws, w.left = volumeField) := by
  unfold buildWireFilters at hws
  cases hmo : mapOption (fun f => toWire (substVolumeValue volumeField thr f)) fs with
  | none => rw [hmo] at hws; exact absurd hws (by simp)
  | some ws0 =>
    rw [hmo] at hws
    simp only [Option.map_some', Option.some_inj] at hws
    obtain ⟨hlen0, hnth0⟩ := mapOption_spec _ fs ws0 hmo
    have hA : ∀ (j : ℕ) (b : WireFilter), ws0[j]? = some b → ws[j]? = some b := by
      intro j b hj
      have hlt : j < ws0.length := by
        by_contra hge
        rw [List.getElem?_eq_none (Nat.le_of_not_lt hge)] at hj
        exact absurd hj (by simp)
      rw [← hws]
      by_cases hany : fs.any (fun f => f.field == volumeField) = true
      · rw [if_pos hany]; exact hj
      · rw [if_neg hany, List.getElem?_append_left hlt]; exact hj
    refine ⟨?_, ?_, ?_, ?_⟩
    · intro i f hif
      obtain ⟨b, hgb, hnth⟩ := hnth0 i f hif
      constructor
      · intro v hv
        have hsub : substVolumeValue volumeField thr f = f := by
          unfold substVolumeValue
          rw [if_neg]
          rintro ⟨-, hvn⟩
          rw [hv] at hvn
          exact absurd hvn (by simp)
        rw [hsub, toWire, hv] at hgb
        simp only [Option.map_some', Option.some_inj] at hgb
        rw [← hgb] at hnth
        exact hA i _ hnth
      · intro hfv hvn
        have hsub : substVolumeValue volumeField thr f = { f with value := some thr } := by
          unfold substVolumeValue
          rw [if_pos ⟨hfv, hvn⟩]
        rw [hsub, toWire] at hgb
        simp only [Option.map_some', Option.some_inj] at hgb
        rw [← hgb] at hnth
        rw [hfv] at hnth
        exact hA i _ hnth
    · intro hnone
      have hany : fs.any (fun f => f.field == volumeField) = false := by
        rw [List.any_eq_false]
        intro f hf
        simp only [beq_iff_eq]
        exact hnone f hf
      rw [← hws, if_neg (by rw [hany]; exact Bool.false_ne_true)]
      constructor
      · simp [hlen0]
      · rw [← hlen0, List.getElem?_append_right (le_refl _)]
        simp
    · intro ⟨f, hf, hfv⟩
      have hany : fs.any (fun f => f.field == volumeField) = true := by
        rw [List.any_eq_true]
        exact ⟨f, hf, by simp [beq_iff_eq, hfv]⟩
      rw [← hws, if_pos hany]
      exact hlen0
    · by_cases hany : fs.any (fun f => f.field == volumeField) = true
      · obtain ⟨f, hf, hfb⟩ := List.any_eq_true.mp hany
        obtain ⟨j, hj⟩ := List.mem_iff_getElem?.mp hf
        obtain ⟨b, hgb, hnth⟩ := hnth0 j f hj
        have hleft := (toWire_subst_field volumeField thr f b hgb).1
        refine ⟨b, ?_, ?_⟩
        · exact List.mem_iff_getElem?.mpr ⟨j, hA j b hnth⟩
        · rw [hleft]; exact beq_iff_eq.mp hfb
      · rw [← hws, if_neg hany]
        exact ⟨{ left := volumeField, operation := syntheticOp, right := thr },
          List.mem_append_right _ (by simp), rfl⟩

/-- Helper: shape of a successfully built equities payload. -/
theorem tvBuildPayload_shape (config : ScreeningConfig)
    (mc : MarketScreeningConfig) (sort_by sort_order : String) (p : Payload)
    (hp : tvBuildPayload config mc sort_by sort_order = some p) :
    buildWireFilters "volume" "greater"
      (pyGet config.provider_config "volume_threshold" (.num mc.default_volume))
      config.filters = some p.filter ∧
    p.columns = tvColumns ∧
    p.symbolset = some [mc.symbolset] ∧
    p.filter2 = some stockTypeFilter ∧
    p.markets = [mc.market_identifier] := by
  simp only [tvBuildPayload] at hp
  cases hbf : buildWireFilters "volume" "greater"
      (pyGet config.provider_config "volume_threshold" (.num mc.default_volume))
      config.filters with
  | none => rw [hbf] at hp; exact absurd hp (by simp)
  | some fs =>
    rw [hbf] at hp
    simp only [Option.map_some', Option.some_inj] at hp
    rw [← hp]
    exact ⟨rfl, rfl, rfl, rfl, rfl⟩

/-- C7: on any successful equities payload build, every configured clause is
translated into the wire triple `(left=field, operation, right=value)`; a
volume clause without a value receives the resolved threshold
`provider_config.get("volume_threshold", market default)` (which is the
market's default volume when `provider_config` has no such key); when no
configured clause targets `volume`, the synthetic clause
`(volume, greater, threshold)` is appended; and in every case the wire
filter list contains a clause with `left = "volume"`. -/
theorem tvBuildPayload_volume_filter (config : ScreeningConfig)
    (mc : MarketScreeningConfig) (sort_by sort_order : String) (p : Payload)
    (hp : tvBuildPayload config mc sort_by sort_order = some p) :
    (∀ (i : ℕ) (f : FilterDef), config.filters[i]? = some f →
      (∀ v, f.value = some v →
        p.filter[i]? =
          some { left := f.field, operation := f.operation, right := v }) ∧
      (f.field = "volume" → f.value = none →
        p.filter[i]? =
          some { left := "volume", operation := f.operation,
                 right := pyGet config.provider_config "volume_threshold"
                   (.num mc.default_volume) })) ∧
    (pyGet? config.provider_config "volume_threshold" = none →
      pyGet config.provider_config "volume_threshold"
        (.num mc.default_volume) = .num mc.default_volume) ∧
    ((∀ f ∈ config.filters, f.field ≠ "volume") →
      p.filter.length = config.filters.length + 1 ∧
      p.filter[config.filters.length]? =
        some { left := "volume", operation := "greater",
               right := pyGet config.provider_config "volume_threshold"
                 (.num mc.default_volume) }) ∧
    (∃ w ∈ p.filter, w.left = "volume") := by
  obtain ⟨hbf, -, -, -, -⟩ :=
    tvBuildPayload_shape config mc sort_by sort_order p hp
  obtain ⟨h1, h2, _, h4⟩ := buildWireFilters_spec _ _ _ _ _ hbf
  refine ⟨h1, ?_, h2, h4⟩
  intro hnone
  unfold pyGet
  rw [hnone]
  rfl

/-- Witness for C7: a config with a value-less volume clause and a close
clause, a provider-config threshold of 500,000 and the america market. -/
theorem tvBuildPayload_volume_filter_witness :
    ∃ p, tvBuildPayload
        ⟨"custom", "tv", [], [("volume_threshold", .num 500000)],
          [⟨"volume", "greater", none⟩, ⟨"close", "less", some (.num 50)⟩], ""⟩
        ⟨"america", "SYML:SP;SPX", 10000000, "america"⟩ "close" "asc" =
        some p ∧
      p.filter[0]? = some ⟨"volume", "greater", .num 500000⟩ ∧
      p.filter[1]? = some ⟨"close", "less", .num 50⟩ ∧
      ∃ w ∈ p.filter, w.left = "volume" := by
  have hp : tvBuildPayload
      ⟨"custom", "tv", [], [("volume_threshold", .num 500000)],
        [⟨"volume", "greater", none⟩, ⟨"close", "less", some (.num 50)⟩], ""⟩
      ⟨"america", "SYML:SP;SPX", 10000000, "america"⟩ "close" "asc" =
      some { columns := tvColumns,
             filter := [⟨"volume", "greater", .num 500000⟩,
                        ⟨"close", "less", .num 50⟩],
             ignore_unknown_fields := false, lang := "en",
             range_from := 0, range_to := 100,
             sortBy := "close", sortOrder := "asc",
             symbolset := some ["SYML:SP;SPX"], markets := ["america"],
             filter2 := some stockTypeFilter } := rfl
  have h := tvBuildPayload_volume_filter _ _ "close" "asc" _ hp
  refine ⟨_, hp, ?_, ?_, h.2.2.2⟩
  · exact (h.1 0 ⟨"volume", "greater", none⟩ rfl).2 rfl rfl
  · exact (h.1 1 ⟨"close", "less", some (.num 50)⟩ rfl).1 (.num 50) rfl

/-- C9: every legacy alias resolves to an existing canonical market entry;
a name that is neither canonical nor an alias makes `get_market_config`
raise the not-found `ValueError` enumerating the canonical market names;
and resolution returns the manager state unchanged (the method only reads
the tables). -/
theorem get_market_config_spec :
    (∀ leg canonical,
      (leg, canonical) ∈ ScreeningConfigManager.make.legacy_configs →
      ∃ mc, alookup ScreeningConfigManager.make.market_configs canonical =
          some mc ∧
        (ScreeningConfigManager.make.get_market_config leg).1 = .ok mc) ∧
    (∀ market,
      alookup ScreeningConfigManager.make.market_configs market = none →
      alookup ScreeningConfigManager.make.legacy_configs market = none →
      (ScreeningConfigManager.make.get_market_config market).1 =
        .error (.unknownMarket market ["brazil", "australia", "america"])) ∧
    (∀ market,
      (ScreeningConfigManager.make.get_market_config market).2 =
        ScreeningConfigManager.make) := by
  refine ⟨?_, ?_, ?_⟩
  · intro leg canonical hmem
    simp only [ScreeningConfigManager.make, List.mem_cons, List.not_mem_nil,
      or_false, Prod.mk.injEq] at hmem
    rcases hmem with ⟨h1, h2⟩ | ⟨h1, h2⟩ | ⟨h1, h2⟩ | ⟨h1, h2⟩ <;>
      subst h1 <;> subst h2 <;>
      exact ⟨_, rfl, rfl⟩
  · intro market h1 h2
    simp only [ScreeningConfigManager.get_market_config, h1, h2]
    rfl
  · intro market
    simp only [ScreeningConfigManager.get_market_config]
    split <;> rfl

/-- Witness for C9: the legacy alias `america-sp-spx` resolves, and the
unknown name `atlantis` is rejected with the canonical names, leaving the
manager unchanged. -/
theorem get_market_config_spec_witness :
    (∃ mc, alookup ScreeningConfigManager.make.market_configs "america" =
        some mc ∧
      (ScreeningConfigManager.make.get_market_config "america-sp-spx").1 =
        .ok mc) ∧
    ((ScreeningConfigManager.make.get_market_config "atlantis").1 =
      .error (.unknownMarket "atlantis" ["brazil", "australia", "america"])) ∧
    ((ScreeningConfigManager.make.get_market_config "atlantis").2 =
      ScreeningConfigManager.make) := by
  have h := get_market_config_spec
  exact ⟨h.1 "america-sp-spx" "america" (by decide),
    h.2.1 "atlantis" rfl rfl, h.2.2 "atlantis"⟩

/-- C10: the equities payload depends on `provider_config` only through
`volume_threshold`; its columns are always the fixed 22-name list, the
symbolset and the structural `filter2` are always included, and a volume
clause is always present.  For the registered `elephant_bars` configuration
(whose `provider_config` sets `extra_columns`, `use_symbolset` and
`skip_default_volume_filter`) the payload is the same as with an empty
`provider_config`: the extra columns are not added and the volume filter is
not suppressed. -/
theorem tvBuildPayload_provider_config_independence :
    (∀ (c1 c2 : ScreeningConfig) (mc : MarketScreeningConfig)
        (sort_by sort_order : String),
      c1.filters = c2.filters →
      pyGet? c1.provider_config "volume_threshold" =
        pyGet? c2.provider_config "volume_threshold" →
      tvBuildPayload c1 mc sort_by sort_order =
        tvBuildPayload c2 mc sort_by sort_order) ∧
    (∀ (c : ScreeningConfig) (mc : MarketScreeningConfig)
        (sort_by sort_order : String) (p : Payload),
      tvBuildPayload c mc sort_by sort_order = some p →
      p.columns = tvColumns ∧ p.symbolset = some [mc.symbolset] ∧
      p.filter2 = some stockTypeFilter ∧ ∃ w ∈ p.filter, w.left = "volume") ∧
    (∀ (mc : MarketScreeningConfig) (sort_by sort_order : String),
      tvBuildPayload elephantBarsConfig mc sort_by sort_order =
        tvBuildPayload
          ⟨"elephant_bars", "tv", [], [], [], elephantBarsConfig.description⟩
          mc sort_by sort_order ∧
      ∃ p, tvBuildPayload elephantBarsConfig mc sort_by sort_order = some p ∧
        p.columns = tvColumns ∧
        p.filter = [{ left := "volume", operation := "greater",
                      right := .num mc.default_volume }] ∧
        p.symbolset = some [mc.symbolset] ∧
        p.filter2 = some stockTypeFilter) := by
  refine ⟨?_, ?_, ?_⟩
  · intro c1 c2 mc sort_by sort_order hf hth
    simp only [tvBuildPayload, pyGet]
    rw [hf, hth]
  · intro c mc sort_by sort_order p hp
    obtain ⟨hbf, hcols, hss, hf2, -⟩ :=
      tvBuildPayload_shape c mc sort_by sort_order p hp
    obtain ⟨-, -, -, hvol⟩ := buildWireFilters_spec _ _ _ _ _ hbf
    exact ⟨hcols, hss, hf2, hvol⟩
  · intro mc sort_by sort_order
    refine ⟨rfl, ?_⟩
    exact ⟨_, rfl, rfl, rfl, rfl, rfl⟩

/-- Witness for C10 at the america market: the `elephant_bars` payload
coincides with the empty-`provider_config` payload and consists of the
fixed columns plus the single synthetic volume clause at the market's
default threshold. -/
theorem tvBuildPayload_provider_config_independence_witness :
    (tvBuildPayload elephantBarsConfig
        ⟨"america", "SYML:SP;SPX", 10000000, "america"⟩ "close" "asc" =
      tvBuildPayload
        ⟨"elephant_bars", "tv", [], [], [], elephantBarsConfig.description⟩
        ⟨"america", "SYML:SP;SPX", 10000000, "america"⟩ "close" "asc") ∧
    ∃ p, tvBuildPayload elephantBarsConfig
        ⟨"america", "SYML:SP;SPX", 10000000, "america"⟩ "close" "asc" =
        some p ∧
      p.columns = tvColumns ∧
      p.filter = [{ left := "volume", operation := "greater",
                    right := .num 10000000 }] := by
  have h := tvBuildPayload_provider_config_independence
  obtain ⟨heq, p, hp, hcols, hfil, -, -⟩ :=
    h.2.2 ⟨"america", "SYML:SP;SPX", 10000000, "america"⟩ "close" "asc"
  exact ⟨heq, p, hp, hcols, hfil⟩

/-- Counterexample to C8 as stated: in a row whose `name` (symbol) column
holds a null, response parsing keeps the null as the stock's symbol — it
does not fall back to `""` (the `symbol` extraction has no null test and
`__post_init__` does not convert `symbol`). -/
theorem tvParseRow_null_symbol_counterexample :
    (tvParseRow [PyVal.null]).map StockData.symbol = some PyVal.null ∧
    ¬ ((tvParseRow [PyVal.null]).map StockData.symbol =
        some (PyVal.str "")) := by
  constructor
  · rfl
  · intro hc
    rw [show (tvParseRow [PyVal.null]).map StockData.symbol =
        some PyVal.null from rfl] at hc
    exact absurd (Option.some_inj.mp hc) (by simp)

/-- Helper equation: numeric core field when the column has an index. -/
theorem coreFloatField_idx (columns : List String) (d : List PyVal)
    (col : String) (i : ℕ) (hci : colIdx? columns col = some i) :
    coreFloatField columns d col =
      match d[i]? with
      | some v => if v = .null then some (.num 0) else (pyFloat v).map .num
      | none => some (.num 0) := by
  unfold coreFloatField
  rw [hci]

/-- Helper equation: numeric core field when the column is absent. -/
theorem coreFloatField_noidx (columns : List String) (d : List PyVal)
    (col : String) (hci : colIdx? columns col = none) :
    coreFloatField columns d col = some (.num 0) := by
  unfold coreFloatField
  rw [hci]

/-- Helper equation: guarded string core field when the column has an
index. -/
theorem coreStrField_idx (columns : List String) (d : List PyVal)
    (col : String) (i : ℕ) (hci : colIdx? columns col = some i) :
    coreStrField columns d col =
      normalizeValue
        (match d[i]? with
         | some v => if v = .null then .str "" else v
         | none => .str "") := by
  unfold coreStrField
  rw [hci]

/-- Helper equation: guarded string core field when the column is absent. -/
theorem coreStrField_noidx (columns : List String) (d : List PyVal)
    (col : String) (hci : colIdx? columns col = none) :
    coreStrField columns d col = .str "" := by
  unfold coreStrField
  rw [hci]
  rfl

/-- Helper equation: unguarded string core field when the column has an
index. -/
theorem coreStrFieldNoGuard_idx (columns : List String) (d : List PyVal)
    (col : String) (i : ℕ) (hci : colIdx? columns col = some i) :
    coreStrFieldNoGuard columns d col =
      normalizeValue ((d[i]?).getD (.str "")) := by
  unfold coreStrFieldNoGuard
  rw [hci]

/-- Helper equation: unguarded string core field when the column is
absent. -/
theorem coreStrFieldNoGuard_noidx (columns : List String) (d : List PyVal)
    (col : String) (hci : colIdx? columns col = none) :
    coreStrFieldNoGuard columns d col = .str "" := by
  unfold coreStrFieldNoGuard
  rw [hci]
  rfl

/-- Helper equation: the symbol extraction when the symbol column has an
index. -/
theorem rowSymbol_idx (columns : List String) (symbolCol : String)
    (d : List PyVal) (i : ℕ) (hci : colIdx? columns symbolCol = some i) :
    rowSymbol columns symbolCol d = some ((d[i]?).getD (.str "")) := by
  unfold rowSymbol
  rw [hci]
  rfl

/-- C8 (amended): response parsing of a positional row of arbitrary length
never raises on out-of-bounds access — for null/numeric cell values parsing
succeeds whatever the row length; `raw_data` maps a column to the row value
exactly when the column's index is within the row and the value is
non-null (nulls are skipped, not inserted); the numeric and string core
fields fall back to `0.0` / `""` when the column is absent, out of range,
or null; the symbol falls back to `""` when its index is out of range but —
amending the original claim — a null symbol value is kept as-is (`None`),
not replaced by `""`. -/
theorem tvParseRow_safe_parsing (d : List PyVal) :
    ((∀ v ∈ d, v = .null ∨ ∃ q, v = .num q) →
      ∃ st, tvParseRow d = some st ∧ st.raw_data = rawDataOf tvColumns d) ∧
    (∀ col v, (col, v) ∈ rawDataOf tvColumns d ↔
      ∃ i, (col, i) ∈ colIdxList tvColumns ∧ d[i]? = some v ∧ v ≠ .null) ∧
    (∀ col (i : ℕ), colIdx? tvColumns col = some i →
      (d.length ≤ i ∨ d[i]? = some .null) →
      coreFloatField tvColumns d col = some (.num 0) ∧
      coreStrField tvColumns d col = .str "" ∧
      coreStrFieldNoGuard tvColumns d col = .str "") ∧
    (∀ col, colIdx? tvColumns col = none →
      coreFloatField tvColumns d col = some (.num 0) ∧
      coreStrField tvColumns d col = .str "" ∧
      coreStrFieldNoGuard tvColumns d col = .str "") ∧
    (∀ (i : ℕ), colIdx? tvColumns "name" = some i → d.length ≤ i →
      rowSymbol tvColumns "name" d = some (.str "")) ∧
    (∀ (i : ℕ), colIdx? tvColumns "name" = some i → d[i]? = some .null →
      rowSymbol tvColumns "name" d = some .null) := by
  refine ⟨?_, ?_, ?_, ?_, ?_, ?_⟩
  · intro hall
    have hfl : ∀ col, ∃ w, coreFloatField tvColumns d col = some w := by
      intro col
      cases hci : colIdx? tvColumns col with
      | none => exact ⟨_, coreFloatField_noidx _ _ _ hci⟩
      | some i =>
        rw [coreFloatField_idx _ _ _ _ hci]
        cases hd : d[i]? with
        | none => exact ⟨.num 0, rfl⟩
        | some v =>
          by_cases hv : v = .null
          · exact ⟨.num 0, by simp [hv]⟩
          · rcases hall v (List.mem_iff_getElem?.mpr ⟨i, hd⟩) with h | ⟨q, hq⟩
            · exact absurd h hv
            · subst hq
              exact ⟨.num q, by simp [pyFloat]⟩
    obtain ⟨w1, h1⟩ := hfl "close"
    obtain ⟨w2, h2⟩ := hfl "volume"
    obtain ⟨w3, h3⟩ := hfl "change"
    obtain ⟨w4, h4⟩ := hfl "market_cap_basic"
    refine ⟨StockData.post_init
      { symbol := (d[0]?).getD (.str ""),
        name := coreStrFieldNoGuard tvColumns d "description",
        price := w1, volume := w2, change := w3, market_cap := w4,
        sector := coreStrField tvColumns d "sector",
        exchange := coreStrField tvColumns d "exchange",
        currency := coreStrField tvColumns d "currency",
        raw_data := rawDataOf tvColumns d }, ?_, rfl⟩
    unfold tvParseRow
    rw [rowSymbol_idx tvColumns "name" d 0 rfl, h1, h2, h3, h4]
  · intro col v
    unfold rawDataOf
    rw [List.mem_filterMap]
    constructor
    · rintro ⟨p, hp, hfp⟩
      cases hd : d[p.2]? with
      | none => rw [hd] at hfp; exact absurd hfp (by simp)
      | some w =>
        rw [hd] at hfp
        simp only [Option.some_bind] at hfp
        by_cases hw : w = .null
        · rw [if_pos hw] at hfp; exact absurd hfp (by simp)
        · rw [if_neg hw] at hfp
          have hpair := Option.some_inj.mp hfp
          injection hpair with hc hv
          refine ⟨p.2, ?_, ?_, ?_⟩
          · rw [← hc, Prod.mk.eta]; exact hp
          · rw [← hv]; exact hd
          · rw [← hv]; exact hw
    · rintro ⟨i, hmem, hd, hv⟩
      refine ⟨(col, i), hmem, ?_⟩
      show ((d[i]?).bind
        (fun w => if w = .null then none else some (col, w))) = some (col, v)
      rw [hd]
      simp only [Option.some_bind]
      rw [if_neg hv]
  · intro col i hci hdis
    have hd : d[i]? = none ∨ d[i]? = some PyVal.null := by
      rcases hdis with h | h
      · exact Or.inl (List.getElem?_eq_none h)
      · exact Or.inr h
    refine ⟨?_, ?_, ?_⟩
    · rcases hd with h | h
      · rw [coreFloatField_idx _ _ _ _ hci, h]
      · rw [coreFloatField_idx _ _ _ _ hci, h]; simp
    · rcases hd with h | h
      · rw [coreStrField_idx _ _ _ _ hci, h]; rfl
      · rw [coreStrField_idx _ _ _ _ hci, h]; rfl
    · rcases hd with h | h
      · rw [coreStrFieldNoGuard_idx _ _ _ _ hci, h]; rfl
      · rw [coreStrFieldNoGuard_idx _ _ _ _ hci, h]; rfl
  · intro col hci
    exact ⟨coreFloatField_noidx _ _ _ hci, coreStrField_noidx _ _ _ hci,
      coreStrFieldNoGuard_noidx _ _ _ hci⟩
  · intro i hci hlen
    rw [rowSymbol_idx tvColumns "name" d i hci, List.getElem?_eq_none hlen]
    rfl
  · intro i hci hd
    rw [rowSymbol_idx tvColumns "name" d i hci, hd]
    rfl

/-- Witness for C8 (amended) at the two-cell row `[3, null]`: parsing
succeeds, `raw_data` keeps the `name` entry and skips the null
`description` entry. -/
theorem tvParseRow_safe_parsing_witness :
    (∃ st, tvParseRow [.num 3, .null] = some st ∧
      st.raw_data = rawDataOf tvColumns [.num 3, .null]) ∧
    (("name", PyVal.num 3) ∈ rawDataOf tvColumns [.num 3, .null]) ∧
    ¬ (("description", PyVal.null) ∈ rawDataOf tvColumns [.num 3, .null]) := by
  have h := tvParseRow_safe_parsing [.num 3, .null]
  refine ⟨h.1 ?_, ?_, ?_⟩
  · intro v hv
    simp only [List.mem_cons, List.not_mem_nil, or_false] at hv
    rcases hv with rfl | rfl
    · exact Or.inr ⟨3, rfl⟩
    · exact Or.inl rfl
  · exact (h.2.1 "name" (.num 3)).mpr ⟨0, by decide, rfl, by simp⟩
  · intro hc
    obtain ⟨i, hmem, hd, hv⟩ := (h.2.1 "description" PyVal.null).mp hc
    exact hv rfl
